import Mathlib

/-!
Verification of `mr2bib.py` (bibgetter/mr2bib): a shallow embedding of the
program in Lean 4, with theorems settling the spec's claims.

Modelling conventions:
- Python strings are `List Char` (`PyStr`); string literals enter via `.data`.
- The HTTP layer is an oracle `PyStr → HttpResponse` mapping a requested key
  to the (status code, body text) the server returns; `requests.get` is pure
  table lookup in the oracle.  `fake_useragent` headers do not affect the
  response in this model.
- Python exceptions become an `Except PyExn` result.  `mr_request` raises
  `AuthenticationException` (401), a plain `Exception` (other non-200) or
  `NotFoundError`; `mr2bib_dict` catches only `NotFoundError`; `Cli.run`
  catches only urllib's `HTTPError` (which the `requests`-based fetch never
  raises); `main` catches only `FatalError`.  An exception escaping `main`
  models an uncaught Python exception: the interpreter prints a traceback to
  stderr and the process exits with status 1.
- A Python dict with insertion order is an association list; assignment
  replaces in place when the key is present, else appends.
- `str.isdigit` is modelled on ASCII decimal digits, the alphabet the tool's
  identifiers use; `str.strip` strips ASCII whitespace.
-/

deriving instance DecidableEq for Except

namespace Mr2bib

/-- Python strings, modelled as lists of characters. -/
abbrev PyStr := List Char

/-- Python `s.strip()`: drop whitespace from both ends. -/
def pyStrip (s : PyStr) : PyStr :=
  ((s.dropWhile Char.isWhitespace).reverse.dropWhile Char.isWhitespace).reverse

/-- Python `s.isdigit()`: nonempty and all digits. -/
def pyIsdigit (s : PyStr) : Bool :=
  !s.isEmpty && s.all Char.isDigit

/-- Python `needle in hay` for strings: substring containment. -/
def hasSubstr (needle : PyStr) : PyStr → Bool
  | [] => needle.isEmpty
  | c :: rest => needle.isPrefixOf (c :: rest) || hasSubstr needle rest

/-- Python `s.rfind(c)`: index of the last occurrence of `c`, or `-1`. -/
def rfind (s : PyStr) (c : Char) : Int :=
  match s with
  | [] => -1
  | a :: rest =>
    let r := rfind rest c
    if r ≥ 0 then r + 1
    else if a = c then 0 else -1

/-- Python slice `s[:n]`, where a negative `n` counts from the end (clamped). -/
def pySliceTo (s : PyStr) (n : Int) : PyStr :=
  if n < 0 then s.take (s.length - (-n).toNat) else s.take n.toNat

/-- Python `text.split("\n")`. -/
def splitOnChar (c : Char) : PyStr → List PyStr
  | [] => [[]]
  | a :: rest =>
    match splitOnChar c rest with
    | [] => [[]]
    | g :: gs => if a = c then [] :: g :: gs else (a :: g) :: gs

/-- `is_valid` (mr2bib.py line 60): `key[0:2] == "MR" and key[2:].isdigit()
and len(key) in [9, 10]`. -/
def is_valid (key : PyStr) : Bool :=
  key.take 2 == "MR".data && pyIsdigit (key.drop 2) &&
    (key.length == 9 || key.length == 10)

/-- `Reference` (line 78): wraps one raw BibTeX entry. -/
structure Reference where
  entry : PyStr
deriving DecidableEq, Repr

/-- `Reference.bibtex` (line 84). -/
def Reference.bibtex (r : Reference) : PyStr := r.entry

/-- `ReferenceErrorInfo` fields (lines 91-96). -/
structure ReferenceErrorInfo where
  message : PyStr
  id : PyStr
  bare_id : PyStr
  updated : PyStr
deriving DecidableEq, Repr

/-- `ReferenceErrorInfo.__init__` (line 91): `bare_id = id[: id.rfind("v")]`,
`updated = "0"`. -/
def ReferenceErrorInfo.init (message id : PyStr) : ReferenceErrorInfo :=
  ⟨message, id, pySliceTo id (rfind id 'v'), "0".data⟩

/-- `ReferenceErrorInfo.bibtex` (line 98): `@comment{id: message}`. -/
def ReferenceErrorInfo.bibtex (e : ReferenceErrorInfo) : PyStr :=
  "@comment\x7b".data ++ e.id ++ ": ".data ++ e.message ++ "\x7d".data

/-- `ReferenceErrorInfo.__str__` (line 105): `Error: message (id)`. -/
def ReferenceErrorInfo.str (e : ReferenceErrorInfo) : PyStr :=
  "Error: ".data ++ e.message ++ " (".data ++ e.id ++ ")".data

/-- A value the aggregator maps an identifier to: a `Reference` or a
`ReferenceErrorInfo`. -/
inductive BibEntry where
  | ref (r : Reference)
  | err (e : ReferenceErrorInfo)
deriving DecidableEq, Repr

/-- Dispatch of `.bibtex()` on either kind of entry. -/
def BibEntry.bibtex : BibEntry → PyStr
  | .ref r => r.bibtex
  | .err e => e.bibtex

/-- The Python exceptions the program raises. -/
inductive PyExn where
  /-- `AuthenticationException` (line 73). -/
  | authenticationException
  /-- bare `Exception(message)` (line 154). -/
  | genericExn (message : PyStr)
  /-- `NotFoundError(message, id)` (line 158). -/
  | notFoundError (message : PyStr) (id : PyStr)
  /-- `FatalError(message)` (line 65). -/
  | fatalError (message : PyStr)
  /-- urllib's `HTTPError`; the `requests`-based fetch never raises it. -/
  | httpError (code : Nat)
deriving DecidableEq, Repr

/-- An HTTP response: status code and body text. -/
structure HttpResponse where
  status_code : Nat
  text : PyStr
deriving DecidableEq, Repr

/-- The network, as a pure oracle from requested key to response. -/
abbrev Oracle := PyStr → HttpResponse

/-- `correct_key` (line 126): currently a pass-through. -/
def correct_key (_goodkey : PyStr) (code : PyStr) : PyStr := code

/-- The line-scanning loop of `mr_request` (lines 156-167): for each line,
raise `NotFoundError` on the marker substring; a stripped `</pre>` closes the
block; a line seen while inside the block is appended prefixed by `"\n"`;
a stripped `<pre>` opens the block. -/
def scanLines (key : PyStr) : List PyStr → Bool → PyStr → Except PyExn PyStr
  | [], _, code => .ok code
  | line :: rest, inCodeBlock, code =>
    if hasSubstr "No publications results for".data line then
      .error (.notFoundError "No such publication".data key)
    else
      let inCodeBlock1 := if pyStrip line = "</pre>".data then false else inCodeBlock
      let code1 := if inCodeBlock1 then code ++ '\n' :: line else code
      let inCodeBlock2 := if pyStrip line = "<pre>".data then true else inCodeBlock1
      scanLines key rest inCodeBlock2 code1

/-- `mr_request` (line 136): 401 raises `AuthenticationException`; any other
non-200 raises `Exception("Received HTTP status code <code>")`; otherwise the
body is scanned line by line and the extracted block, passed through
`correct_key`, is returned. -/
def mr_request (oracle : Oracle) (key : PyStr) : Except PyExn PyStr :=
  let r := oracle key
  if r.status_code = 401 then .error .authenticationException
  else if r.status_code ≠ 200 then
    .error (.genericExn ("Received HTTP status code ".data ++ (Nat.repr r.status_code).data))
  else
    match scanLines key (splitOnChar '\n' r.text) false [] with
    | .ok code => .ok (correct_key key code)
    | .error e => .error e

/-- The result dictionary: insertion-ordered association list. -/
abbrev Dict := List (PyStr × BibEntry)

/-- Python dict assignment `d[k] = v`: replace in place or append. -/
def dictInsert (d : Dict) (k : PyStr) (v : BibEntry) : Dict :=
  match d with
  | [] => [(k, v)]
  | (k2, v2) :: rest => if k2 = k then (k, v) :: rest else (k2, v2) :: dictInsert rest k v

/-- Python dict lookup `d[k]`, as an `Option`. -/
def dictGet? (d : Dict) (k : PyStr) : Option BibEntry :=
  match d with
  | [] => none
  | (k2, v) :: rest => if k2 = k then some v else dictGet? rest k

/-- The validation loop of `mr2bib_dict` (lines 178-182): valid keys are
collected in order; each invalid key maps to an "Invalid Mathematical Reviews
identifier" error. -/
def validateLoop (pending : List PyStr) (keys : List PyStr) (d : Dict) :
    List PyStr × Dict :=
  match pending with
  | [] => (keys, d)
  | key :: rest =>
    if is_valid key then validateLoop rest (keys ++ [key]) d
    else
      validateLoop rest keys
        (dictInsert d key (.err (ReferenceErrorInfo.init
          "Invalid Mathematical Reviews identifier".data key)))

/-- The fetch loop of `mr2bib_dict` (lines 189-195): `NotFoundError` is
downgraded to a per-key `ReferenceErrorInfo`; any other exception propagates,
aborting the remaining keys. -/
def fetchLoop (oracle : Oracle) : List PyStr → Dict → Except PyExn Dict
  | [], d => .ok d
  | key :: rest, d =>
    match mr_request oracle key with
    | .ok entry => fetchLoop oracle rest (dictInsert d key (.ref ⟨entry⟩))
    | .error (.notFoundError message id) =>
        fetchLoop oracle rest (dictInsert d key (.err (ReferenceErrorInfo.init message id)))
    | .error e => .error e

/-- `mr2bib_dict` (line 172). -/
def mr2bib_dict (oracle : Oracle) (key_list : List PyStr) : Except PyExn Dict :=
  let (keys, d) := validateLoop key_list [] []
  if keys.length = 0 then .ok d
  else fetchLoop oracle keys d

/-- `mr2bib` (line 109): one entry per element of `id_list`, looked up in the
dictionary; a missing key (dead in practice) falls back to a "Not found"
error. -/
def mr2bib (oracle : Oracle) (id_list : List PyStr) : Except PyExn (List BibEntry) :=
  match mr2bib_dict oracle id_list with
  | .error e => .error e
  | .ok d =>
    .ok (id_list.map (fun id =>
      match dictGet? d id with
      | some v => v
      | none => .err (ReferenceErrorInfo.init "Not found".data id)))

/-- Parsed command-line arguments (`parse_args`, line 272), after the
stdin substitution of line 207: `id` is the final identifier list. -/
structure Args where
  id : List PyStr
  comments : Bool
  quiet : Bool
  verbose : Bool
deriving DecidableEq, Repr

/-- The `Cli` state (lines 203-217). -/
structure Cli where
  args : Args
  output : List PyStr
  messages : List PyStr
  error_count : Nat
  code : Nat
deriving DecidableEq, Repr

/-- `Cli.__init__` (line 203): with `--comments` and without `--verbose`,
quiet is forced on; buffers start empty. -/
def Cli.init (args : Args) : Cli :=
  let args1 := if args.comments && !args.verbose then { args with quiet := true } else args
  ⟨args1, [], [], 0, 0⟩

/-- One iteration of `Cli.create_output` (lines 231-239). -/
def coStep (c : Cli) (b : BibEntry) : Cli :=
  match b with
  | .err e =>
    let c1 : Cli := { c with error_count := c.error_count + 1 }
    let c2 : Cli :=
      if c1.args.comments then { c1 with output := c1.output ++ [e.bibtex] } else c1
    if c2.args.quiet then c2 else { c2 with messages := c2.messages ++ [e.str] }
  | .ref r => { c with output := c.output ++ [r.bibtex] }

/-- `Cli.create_output` (line 229). -/
def create_output (c : Cli) (bib : List BibEntry) : Cli :=
  bib.foldl coStep c

/-- `Cli.tally_errors` (line 253): returns the exit code and the message
buffer after the summary line. -/
def tally_errors (c : Cli) (bib : List BibEntry) : Nat × List PyStr :=
  if c.error_count = c.args.id.length then
    (2, c.messages ++ ["No successful matches".data])
  else if c.error_count > 0 then
    (1, c.messages ++
      [(Nat.repr (bib.length - c.error_count)).data ++ " of ".data ++
        (Nat.repr bib.length).data ++ " matched succesfully".data])
  else (0, c.messages)

/-- `Cli.run` (line 219): urllib's `HTTPError` would become a `FatalError`;
every other exception from `mr2bib` propagates. -/
def Cli.run (oracle : Oracle) (c : Cli) : Except PyExn Cli :=
  match mr2bib oracle c.args.id with
  | .error (.httpError code) =>
      .error (.fatalError ("HTTP Connection Error: ".data ++ (Nat.repr code).data))
  | .error e => .error e
  | .ok bib =>
    let c1 := create_output c bib
    let (code, messages) := tally_errors c1 bib
    .ok { c1 with code := code, messages := messages }

/-- `main` (line 308): only `FatalError` is handled (stderr line, exit 2);
any other exception escapes uncaught (`.error`: interpreter traceback, exit
status 1).  On success, returns the exit code with the final `Cli` state,
whose `output` buffer goes to stdout and `messages` buffer to stderr. -/
def main (oracle : Oracle) (args : Args) : Except PyExn (Nat × Cli) :=
  let c := Cli.init args
  match Cli.run oracle c with
  | .error (.fatalError msg) => .ok (2, { c with messages := c.messages ++ [msg] })
  | .error e => .error e
  | .ok c1 => .ok (c1.code, c1)

/-! Derived definitions used to state the claims. -/

/-- Whether an entry is an error descriptor. -/
def isErr : BibEntry → Bool
  | .err _ => true
  | .ref _ => false

/-- Number of error entries in a result list (the value `error_count` reaches
after `create_output`). -/
def countErr (bib : List BibEntry) : Nat := bib.countP isErr

/-- The entry the validation loop records for an invalid identifier. -/
def invalidEntry (id : PyStr) : BibEntry :=
  .err (ReferenceErrorInfo.init "Invalid Mathematical Reviews identifier".data id)

/-- Whether fetching `k` raises an exception that `mr2bib_dict` does not
catch (anything but success or `NotFoundError`). -/
def fetchFatal (oracle : Oracle) (k : PyStr) : Bool :=
  match mr_request oracle k with
  | .ok _ => false
  | .error (.notFoundError _ _) => false
  | .error _ => true

/-- The entry the fetch loop records for a valid key (the last branch is
unreachable when the loop completes). -/
def fetchEntry (oracle : Oracle) (k : PyStr) : BibEntry :=
  match mr_request oracle k with
  | .ok entry => .ref ⟨entry⟩
  | .error (.notFoundError m i) => .err (ReferenceErrorInfo.init m i)
  | .error _ => .err (ReferenceErrorInfo.init "Not found".data k)

/-- The entry the aggregator produces for one input identifier. -/
def expectedEntry (oracle : Oracle) (id : PyStr) : BibEntry :=
  if is_valid id then fetchEntry oracle id else invalidEntry id

/-- The partial-success summary line of `tally_errors`. -/
def summaryLine (succeeded total : Nat) : PyStr :=
  (Nat.repr succeeded).data ++ " of ".data ++ (Nat.repr total).data ++
    " matched succesfully".data

/-! Concrete data used to exercise the theorems. -/

/-- A server that always answers 200 with an empty body. -/
def oEmpty : Oracle := fun _ => ⟨200, []⟩

/-- The `Cli` state a run over the empty identifier list ends in. -/
def cli9 : Cli := ⟨⟨[], false, false, false⟩, [], ["No successful matches".data], 0, 2⟩

/-- A response body holding one BibTeX entry between `<pre>` markers. -/
def bodyPre : PyStr := "junk\n<pre>\n@article\x7bMR1996800\x7d\n</pre>\ntail".data

/-- A server that answers every key with 200 and the `bodyPre` page. -/
def oPre : Oracle := fun _ => ⟨200, bodyPre⟩

/-- A server that knows `MR1996800` and fails with HTTP 500 on everything
else. -/
def oracle500 : Oracle := fun key =>
  if key = "MR1996800".data then ⟨200, bodyPre⟩ else ⟨500, []⟩

/-- A server that knows `MR1996800` and reports no results for everything
else. -/
def oW : Oracle := fun key =>
  if key = "MR1996800".data then ⟨200, bodyPre⟩
  else ⟨200, "No publications results for MR".data⟩

/-- A batch with one invalid, one not-found and one found identifier. -/
def idsW : List PyStr := ["XR1996800".data, "MR1996801".data, "MR1996800".data]

/-- The result list the aggregator produces for `idsW` against `oW`. -/
def bibW : List BibEntry :=
  [.err (ReferenceErrorInfo.init "Invalid Mathematical Reviews identifier".data "XR1996800".data),
   .err (ReferenceErrorInfo.init "No such publication".data "MR1996801".data),
   .ref ⟨"\n@article\x7bMR1996800\x7d".data⟩]

/-- A server whose response depends on the validity of the key; agrees with
`oEmpty` on every valid key. -/
def oValidOnly : Oracle := fun key =>
  if is_valid key then ⟨200, []⟩ else ⟨500, []⟩

/-- A server that reports no results for every key. -/
def oNF : Oracle := fun _ => ⟨200, "No publications results for MR0000000".data⟩

/-! Helper lemmas about `rfind` and `pySliceTo`. -/

theorem rfind_of_not_mem {s : PyStr} {c : Char} (h : c ∉ s) : rfind s c = -1 := by
  induction s with
  | nil => rfl
  | cons a rest ih =>
    have hrest : c ∉ rest := fun hm => h (List.mem_cons_of_mem a hm)
    have hne : ¬ a = c := fun e => h (by simp [e])
    simp only [rfind, ih hrest]
    rw [if_neg (by norm_num), if_neg hne]

theorem rfind_nonneg {s : PyStr} {c : Char} (h : c ∈ s) : 0 ≤ rfind s c := by
  induction s with
  | nil => cases h
  | cons a rest ih =>
    simp only [rfind]
    by_cases hm : c ∈ rest
    · have h1 := ih hm
      rw [if_pos (by omega)]
      omega
    · have hac : a = c := by
        rcases List.mem_cons.mp h with h2 | h2
        · exact h2.symm
        · exact absurd h2 hm
      rw [rfind_of_not_mem hm, if_neg (by norm_num), if_pos hac]

theorem bare_split {s : PyStr} (h : 'v' ∈ s) :
    ∃ t, pySliceTo s (rfind s 'v') ++ 'v' :: t = s ∧ 'v' ∉ t := by
  induction s with
  | nil => cases h
  | cons a rest ih =>
    by_cases hm : 'v' ∈ rest
    · obtain ⟨t, ht, hnt⟩ := ih hm
      have h0 : 0 ≤ rfind rest 'v' := rfind_nonneg hm
      refine ⟨t, ?_, hnt⟩
      have hr : rfind (a :: rest) 'v' = rfind rest 'v' + 1 := by
        simp only [rfind]
        rw [if_pos (by omega)]
      have hslice : pySliceTo (a :: rest) (rfind rest 'v' + 1) =
          a :: pySliceTo rest (rfind rest 'v') := by
        unfold pySliceTo
        rw [if_neg (by omega), if_neg (by omega), Int.toNat_add h0 (by omega),
          show Int.toNat 1 = 1 from rfl, List.take_succ_cons]
      rw [hr, hslice, List.cons_append, ht]
    · have hac : a = 'v' := by
        rcases List.mem_cons.mp h with h2 | h2
        · exact h2.symm
        · exact absurd h2 hm
      have hr : rfind (a :: rest) 'v' = 0 := by
        simp only [rfind, rfind_of_not_mem hm]
        rw [if_neg (by norm_num), if_pos hac]
      refine ⟨rest, ?_, hm⟩
      rw [hr]
      unfold pySliceTo
      rw [if_neg (by norm_num)]
      simp [hac]

/-! Helper lemmas about the dictionary and the aggregation loops. -/

theorem dictGet_insert_self (d : Dict) (k : PyStr) (v : BibEntry) :
    dictGet? (dictInsert d k v) k = some v := by
  induction d with
  | nil => simp [dictInsert, dictGet?]
  | cons p rest ih =>
    obtain ⟨k2, v2⟩ := p
    by_cases h : k2 = k
    · simp [dictInsert, dictGet?, h]
    · simp [dictInsert, dictGet?, h, ih]

theorem dictGet_insert_ne (d : Dict) (k k' : PyStr) (v : BibEntry) (h : k' ≠ k) :
    dictGet? (dictInsert d k v) k' = dictGet? d k' := by
  induction d with
  | nil => simp [dictInsert, dictGet?, Ne.symm h]
  | cons p rest ih =>
    obtain ⟨k2, v2⟩ := p
    by_cases h2 : k2 = k
    · have hk2 : ¬ k2 = k' := by
        rw [h2]
        exact Ne.symm h
      simp [dictInsert, dictGet?, h2, Ne.symm h, hk2]
    · by_cases h3 : k2 = k'
      · simp [dictInsert, dictGet?, h2, h3, h]
      · simp [dictInsert, dictGet?, h2, h3, ih]

theorem validateLoop_fst (pending : List PyStr) (keys : List PyStr) (d : Dict) :
    (validateLoop pending keys d).1 = keys ++ pending.filter (fun k => is_valid k) := by
  induction pending generalizing keys d with
  | nil => simp [validateLoop]
  | cons key rest ih =>
    cases hv : is_valid key with
    | true => simp [validateLoop, hv, ih, List.filter_cons, List.append_assoc]
    | false => simp [validateLoop, hv, ih, List.filter_cons]

theorem validateLoop_get (pending : List PyStr) (keys : List PyStr) (d : Dict)
    (id : PyStr) :
    dictGet? (validateLoop pending keys d).2 id =
      if is_valid id = false ∧ id ∈ pending then some (invalidEntry id)
      else dictGet? d id := by
  induction pending generalizing keys d with
  | nil => simp [validateLoop]
  | cons key rest ih =>
    cases hv : is_valid key with
    | true =>
      simp only [validateLoop, hv, if_true]
      rw [ih]
      by_cases hid : is_valid id = false
      · by_cases hmem : id ∈ rest
        · rw [if_pos ⟨hid, hmem⟩, if_pos ⟨hid, List.mem_cons_of_mem _ hmem⟩]
        · rw [if_neg (fun hc => hmem hc.2), if_neg ?_]
          intro hc
          rcases List.mem_cons.mp hc.2 with he | he
          · rw [he, hv] at hid
            cases hid
          · exact hmem he
      · rw [if_neg (fun hc => hid hc.1), if_neg (fun hc => hid hc.1)]
    | false =>
      simp only [validateLoop, hv, Bool.false_eq_true, if_false]
      rw [ih]
      by_cases hid : is_valid id = false
      · by_cases hmem : id ∈ rest
        · rw [if_pos ⟨hid, hmem⟩, if_pos ⟨hid, List.mem_cons_of_mem _ hmem⟩]
        · rw [if_neg (fun hc => hmem hc.2)]
          by_cases he : id = key
          · rw [if_pos ⟨hid, by rw [he]; exact List.mem_cons_self _ _⟩, he,
              dictGet_insert_self]
            rfl
          · rw [if_neg ?_, dictGet_insert_ne d key id _ he]
            intro hc
            rcases List.mem_cons.mp hc.2 with h2 | h2
            · exact he h2
            · exact hmem h2
      · have hne : id ≠ key := by
          intro e
          rw [e, hv] at hid
          exact hid rfl
        rw [if_neg (fun hc => hid hc.1), if_neg (fun hc => hid hc.1),
          dictGet_insert_ne d key id _ hne]

theorem fetchLoop_ok (oracle : Oracle) (keys : List PyStr) (d d' : Dict)
    (h : fetchLoop oracle keys d = .ok d') :
    (∀ k ∈ keys, fetchFatal oracle k = false) ∧
    ∀ id, dictGet? d' id =
      if id ∈ keys then some (fetchEntry oracle id) else dictGet? d id := by
  induction keys generalizing d with
  | nil =>
    simp only [fetchLoop] at h
    injection h with h
    subst h
    exact ⟨by simp, fun id => by simp⟩
  | cons key rest ih =>
    cases hreq : mr_request oracle key with
    | ok entry =>
      simp only [fetchLoop, hreq] at h
      obtain ⟨hfat, hget⟩ := ih _ h
      constructor
      · intro k hk
        rcases List.mem_cons.mp hk with he | he
        · rw [he]
          unfold fetchFatal
          rw [hreq]
        · exact hfat k he
      · intro id
        rw [hget id]
        by_cases hmem : id ∈ rest
        · rw [if_pos hmem, if_pos (List.mem_cons_of_mem _ hmem)]
        · rw [if_neg hmem]
          by_cases he : id = key
          · rw [if_pos (by rw [he]; exact List.mem_cons_self _ _), he,
              dictGet_insert_self]
            unfold fetchEntry
            rw [hreq]
          · rw [if_neg ?_, dictGet_insert_ne d key id _ he]
            intro hc
            rcases List.mem_cons.mp hc with h2 | h2
            · exact he h2
            · exact hmem h2
    | error e =>
      cases e with
      | notFoundError msg i =>
        simp only [fetchLoop, hreq] at h
        obtain ⟨hfat, hget⟩ := ih _ h
        constructor
        · intro k hk
          rcases List.mem_cons.mp hk with he | he
          · rw [he]
            unfold fetchFatal
            rw [hreq]
          · exact hfat k he
        · intro id
          rw [hget id]
          by_cases hmem : id ∈ rest
          · rw [if_pos hmem, if_pos (List.mem_cons_of_mem _ hmem)]
          · rw [if_neg hmem]
            by_cases he : id = key
            · rw [if_pos (by rw [he]; exact List.mem_cons_self _ _), he,
                dictGet_insert_self]
              unfold fetchEntry
              rw [hreq]
            · rw [if_neg ?_, dictGet_insert_ne d key id _ he]
              intro hc
              rcases List.mem_cons.mp hc with h2 | h2
              · exact he h2
              · exact hmem h2
      | authenticationException =>
        simp only [fetchLoop, hreq] at h
        exact (Except.noConfusion h)
      | genericExn msg =>
        simp only [fetchLoop, hreq] at h
        exact (Except.noConfusion h)
      | fatalError msg =>
        simp only [fetchLoop, hreq] at h
        exact (Except.noConfusion h)
      | httpError code =>
        simp only [fetchLoop, hreq] at h
        exact (Except.noConfusion h)

theorem fetchLoop_complete (oracle : Oracle) (keys : List PyStr) (d : Dict)
    (h : ∀ k ∈ keys, fetchFatal oracle k = false) :
    ∃ d', fetchLoop oracle keys d = .ok d' := by
  induction keys generalizing d with
  | nil => exact ⟨d, rfl⟩
  | cons key rest ih =>
    have hk := h key (List.mem_cons_self _ _)
    have hrest : ∀ k ∈ rest, fetchFatal oracle k = false :=
      fun k hk2 => h k (List.mem_cons_of_mem _ hk2)
    unfold fetchFatal at hk
    cases hreq : mr_request oracle key with
    | ok entry =>
      obtain ⟨d', hd'⟩ := ih (dictInsert d key (.ref ⟨entry⟩)) hrest
      refine ⟨d', ?_⟩
      simp only [fetchLoop, hreq]
      exact hd'
    | error e =>
      rw [hreq] at hk
      cases e with
      | notFoundError msg i =>
        obtain ⟨d', hd'⟩ :=
          ih (dictInsert d key (.err (ReferenceErrorInfo.init msg i))) hrest
        refine ⟨d', ?_⟩
        simp only [fetchLoop, hreq]
        exact hd'
      | authenticationException => cases hk
      | genericExn msg => cases hk
      | fatalError msg => cases hk
      | httpError code => cases hk

theorem mr2bib_dict_eq (oracle : Oracle) (ids : List PyStr) :
    mr2bib_dict oracle ids =
      if (validateLoop ids [] []).1.length = 0 then .ok (validateLoop ids [] []).2
      else fetchLoop oracle (validateLoop ids [] []).1 (validateLoop ids [] []).2 := rfl

theorem mr2bib_dict_get (oracle : Oracle) (ids : List PyStr) (d : Dict)
    (h : mr2bib_dict oracle ids = .ok d) :
    ∀ id ∈ ids, dictGet? d id = some (expectedEntry oracle id) := by
  intro id hid
  rw [mr2bib_dict_eq] at h
  by_cases hz : (validateLoop ids [] []).1.length = 0
  · rw [if_pos hz] at h
    injection h with h
    rw [← h, validateLoop_get]
    have hfil : ids.filter (fun k => is_valid k) = [] := by
      have hf := validateLoop_fst ids [] []
      rw [hf] at hz
      simpa using hz
    have hinv : is_valid id = false := by
      cases hb : is_valid id with
      | false => rfl
      | true =>
        have : id ∈ ids.filter (fun k => is_valid k) := List.mem_filter.mpr ⟨hid, hb⟩
        rw [hfil] at this
        cases this
    rw [if_pos ⟨hinv, hid⟩]
    simp [expectedEntry, hinv]
  · rw [if_neg hz] at h
    obtain ⟨hfat, hget⟩ := fetchLoop_ok oracle _ _ _ h
    rw [hget id]
    have hkeys := validateLoop_fst ids [] []
    rw [List.nil_append] at hkeys
    cases hv : is_valid id with
    | true =>
      have hmem : id ∈ (validateLoop ids [] []).1 := by
        rw [hkeys]
        exact List.mem_filter.mpr ⟨hid, hv⟩
      rw [if_pos hmem]
      simp [expectedEntry, hv]
    | false =>
      have hnmem : id ∉ (validateLoop ids [] []).1 := by
        rw [hkeys]
        intro hc
        have := (List.mem_filter.mp hc).2
        rw [hv] at this
        cases this
      rw [if_neg hnmem, validateLoop_get, if_pos ⟨hv, hid⟩]
      simp [expectedEntry, hv]

theorem mr2bib_ok_map (oracle : Oracle) (ids : List PyStr) (bib : List BibEntry)
    (h : mr2bib oracle ids = .ok bib) : bib = ids.map (expectedEntry oracle) := by
  unfold mr2bib at h
  cases hd : mr2bib_dict oracle ids with
  | error e =>
    rw [hd] at h
    exact (Except.noConfusion h)
  | ok d =>
    rw [hd] at h
    injection h with h
    rw [← h]
    apply List.map_congr_left
    intro id hid
    rw [mr2bib_dict_get oracle ids d hd id hid]

theorem mr2bib_ok_of_nonfatal (oracle : Oracle) (ids : List PyStr)
    (h : ∀ k ∈ ids, is_valid k = true → fetchFatal oracle k = false) :
    mr2bib oracle ids = .ok (ids.map (expectedEntry oracle)) := by
  have hex : ∃ d, mr2bib_dict oracle ids = .ok d := by
    rw [mr2bib_dict_eq]
    by_cases hz : (validateLoop ids [] []).1.length = 0
    · rw [if_pos hz]
      exact ⟨_, rfl⟩
    · rw [if_neg hz]
      apply fetchLoop_complete
      intro k hk
      have hkeys := validateLoop_fst ids [] []
      rw [List.nil_append] at hkeys
      rw [hkeys] at hk
      have hk2 := List.mem_filter.mp hk
      exact h k hk2.1 hk2.2
  obtain ⟨d, hd⟩ := hex
  have heq : mr2bib oracle ids = .ok (ids.map fun id =>
      match dictGet? d id with
      | some v => v
      | none => .err (ReferenceErrorInfo.init "Not found".data id)) := by
    unfold mr2bib
    rw [hd]
  rw [heq]
  congr 1
  apply List.map_congr_left
  intro id hid
  rw [mr2bib_dict_get oracle ids d hd id hid]

theorem mr_request_congr {o1 o2 : Oracle} {k : PyStr} (h : o1 k = o2 k) :
    mr_request o1 k = mr_request o2 k := by
  unfold mr_request
  rw [h]

theorem fetchLoop_congr (o1 o2 : Oracle) (keys : List PyStr) (d : Dict)
    (h : ∀ k ∈ keys, o1 k = o2 k) :
    fetchLoop o1 keys d = fetchLoop o2 keys d := by
  induction keys generalizing d with
  | nil => rfl
  | cons key rest ih =>
    have hk := mr_request_congr (h key (List.mem_cons_self _ _))
    have hrest : ∀ k ∈ rest, o1 k = o2 k := fun k hm => h k (List.mem_cons_of_mem _ hm)
    simp only [fetchLoop, hk]
    cases mr_request o2 key with
    | ok entry => exact ih _ hrest
    | error e =>
      cases e with
      | notFoundError msg i => exact ih _ hrest
      | authenticationException => rfl
      | genericExn msg => rfl
      | fatalError msg => rfl
      | httpError code => rfl

theorem mr2bib_congr (o1 o2 : Oracle) (ids : List PyStr)
    (h : ∀ k, is_valid k = true → o1 k = o2 k) :
    mr2bib o1 ids = mr2bib o2 ids := by
  have hdict : mr2bib_dict o1 ids = mr2bib_dict o2 ids := by
    rw [mr2bib_dict_eq, mr2bib_dict_eq]
    by_cases hz : (validateLoop ids [] []).1.length = 0
    · rw [if_pos hz, if_pos hz]
    · rw [if_neg hz, if_neg hz]
      apply fetchLoop_congr
      intro k hk
      have hkeys := validateLoop_fst ids [] []
      rw [List.nil_append] at hkeys
      rw [hkeys] at hk
      exact h k (List.mem_filter.mp hk).2
  unfold mr2bib
  rw [hdict]

/-- C10: for an identifier with no "v", the `ReferenceErrorInfo` bare form is
the identifier with its final character removed (since `rfind` yields -1 and
the Python slice `id[:-1]` excludes the last character); for an identifier
containing "v", it is the part before the last "v". -/
theorem claim_C10 (m id : PyStr) :
    (('v' ∉ id) → (ReferenceErrorInfo.init m id).bare_id = id.dropLast) ∧
    (('v' ∈ id) →
      ∃ t, (ReferenceErrorInfo.init m id).bare_id ++ 'v' :: t = id ∧ 'v' ∉ t) := by
  constructor
  · intro h
    show pySliceTo id (rfind id 'v') = id.dropLast
    rw [rfind_of_not_mem h]
    unfold pySliceTo
    rw [if_pos (by norm_num), List.dropLast_eq_take]
    norm_num
  · intro h
    exact bare_split h

/-- Witness for C10 at concrete identifiers with and without a "v". -/
theorem claim_C10_witness :
    ('v' ∉ "MR1996800".data) ∧
    (ReferenceErrorInfo.init "m".data "MR1996800".data).bare_id =
      ("MR1996800".data).dropLast ∧
    ('v' ∈ "MRv1v23456".data) ∧
    (∃ t, (ReferenceErrorInfo.init "m".data "MRv1v23456".data).bare_id ++
      'v' :: t = "MRv1v23456".data ∧ 'v' ∉ t) :=
  ⟨by decide, (claim_C10 "m".data "MR1996800".data).1 (by decide), by decide,
    (claim_C10 "m".data "MRv1v23456".data).2 (by decide)⟩

/-- C6: the validator accepts exactly the strings whose first two characters
are "MR", whose remaining characters are decimal digits, and whose length is
9 or 10; checked on the spec's six examples. -/
theorem claim_C6 :
    (∀ s : PyStr, is_valid s = true ↔
      (s.take 2 = "MR".data ∧ (∀ c ∈ s.drop 2, c.isDigit = true) ∧
        (s.length = 9 ∨ s.length = 10))) ∧
    is_valid "MR1996800".data = true ∧ is_valid "MR19968000".data = true ∧
    is_valid "XR1996800".data = false ∧ is_valid "MR19A6800".data = false ∧
    is_valid "MR199680".data = false ∧ is_valid "MR199680000".data = false := by
  refine ⟨?_, by decide, by decide, by decide, by decide, by decide, by decide⟩
  intro s
  constructor
  · intro h
    simp only [is_valid, pyIsdigit, Bool.and_eq_true, Bool.or_eq_true, beq_iff_eq,
      Bool.not_eq_true', List.all_eq_true] at h
    obtain ⟨⟨h1, _, h2⟩, h3⟩ := h
    exact ⟨h1, h2, h3⟩
  · intro ⟨h1, h2, h3⟩
    simp only [is_valid, pyIsdigit, Bool.and_eq_true, Bool.or_eq_true, beq_iff_eq,
      Bool.not_eq_true', List.all_eq_true]
    refine ⟨⟨h1, ?_, h2⟩, h3⟩
    have hlen : (s.drop 2).length ≠ 0 := by
      rw [List.length_drop]
      omega
    cases hd : s.drop 2 with
    | nil =>
      rw [hd] at hlen
      simp at hlen
    | cons a l => rfl

/-! Helper lemmas about the command-line front end. -/

theorem init_id (a : Args) : (Cli.init a).args.id = a.id := by
  simp only [Cli.init]
  split <;> rfl

theorem init_comments (a : Args) : (Cli.init a).args.comments = a.comments := by
  simp only [Cli.init]
  split <;> rfl

theorem coStep_args (c : Cli) (b : BibEntry) : (coStep c b).args = c.args := by
  cases b with
  | ref r => rfl
  | err e =>
    simp only [coStep]
    split <;> split <;> rfl

theorem coStep_error_count (c : Cli) (b : BibEntry) :
    (coStep c b).error_count = c.error_count + (if isErr b then 1 else 0) := by
  cases b with
  | ref r => rfl
  | err e =>
    simp only [coStep, isErr, if_pos]
    split <;> split <;> rfl

theorem coStep_messages_quiet (c : Cli) (b : BibEntry) (h : c.args.quiet = true) :
    (coStep c b).messages = c.messages := by
  cases b with
  | ref r => rfl
  | err e =>
    simp only [coStep]
    split <;> simp [h]

theorem coStep_output_comments (c : Cli) (b : BibEntry) (h : c.args.comments = true) :
    (coStep c b).output = c.output ++ [b.bibtex] := by
  cases b with
  | ref r => rfl
  | err e =>
    simp only [coStep]
    rw [if_pos (show ({ c with error_count := c.error_count + 1 } : Cli).args.comments =
      true from h)]
    split <;> rfl

theorem create_output_args (c : Cli) (bib : List BibEntry) :
    (create_output c bib).args = c.args := by
  induction bib generalizing c with
  | nil => rfl
  | cons b rest ih =>
    simp only [create_output, List.foldl_cons]
    rw [show List.foldl coStep (coStep c b) rest = create_output (coStep c b) rest
      from rfl, ih, coStep_args]

theorem create_output_error_count (c : Cli) (bib : List BibEntry) :
    (create_output c bib).error_count = c.error_count + countErr bib := by
  induction bib generalizing c with
  | nil => simp [create_output, countErr]
  | cons b rest ih =>
    simp only [create_output, List.foldl_cons]
    rw [show List.foldl coStep (coStep c b) rest = create_output (coStep c b) rest
      from rfl, ih, coStep_error_count]
    unfold countErr
    rw [List.countP_cons]
    cases hb : isErr b with
    | false => simp [hb, countErr]
    | true =>
      simp [hb, countErr]
      omega

theorem create_output_messages_quiet (c : Cli) (bib : List BibEntry)
    (h : c.args.quiet = true) :
    (create_output c bib).messages = c.messages := by
  induction bib generalizing c with
  | nil => rfl
  | cons b rest ih =>
    simp only [create_output, List.foldl_cons]
    rw [show List.foldl coStep (coStep c b) rest = create_output (coStep c b) rest
      from rfl, ih _ (by rw [coStep_args]; exact h), coStep_messages_quiet _ _ h]

theorem create_output_output_comments (c : Cli) (bib : List BibEntry)
    (h : c.args.comments = true) :
    (create_output c bib).output = c.output ++ bib.map BibEntry.bibtex := by
  induction bib generalizing c with
  | nil => simp [create_output]
  | cons b rest ih =>
    simp only [create_output, List.foldl_cons, List.map_cons]
    rw [show List.foldl coStep (coStep c b) rest = create_output (coStep c b) rest
      from rfl, ih _ (by rw [coStep_args]; exact h), coStep_output_comments _ _ h,
      List.append_assoc]
    rfl

/-- C8: with the comments flag set and verbose unset, quiet is forced on:
`create_output` appends no per-error line to the stderr message buffer, and
every entry — errors as their "@comment{id: message}" line — is appended to
the stdout output buffer. -/
theorem claim_C8 (ids : List PyStr) (q : Bool) (bib : List BibEntry) :
    (Cli.init ⟨ids, true, q, false⟩).args.quiet = true ∧
    (create_output (Cli.init ⟨ids, true, q, false⟩) bib).messages = [] ∧
    (create_output (Cli.init ⟨ids, true, q, false⟩) bib).output =
      bib.map BibEntry.bibtex ∧
    (∀ e : ReferenceErrorInfo, BibEntry.bibtex (.err e) =
      "@comment\x7b".data ++ e.id ++ ": ".data ++ e.message ++ "\x7d".data) := by
  have hq : (Cli.init ⟨ids, true, q, false⟩).args.quiet = true := rfl
  have hc : (Cli.init ⟨ids, true, q, false⟩).args.comments = true := rfl
  refine ⟨hq, ?_, ?_, fun e => rfl⟩
  · rw [create_output_messages_quiet _ _ hq]
    rfl
  · rw [create_output_output_comments _ _ hc]
    rfl

/-- C2 (amended): for every nonempty identifier list, absent a fatal fetch
failure, the exit code is 0 when zero results are errors, 1 when some but
not all are (with the "N of M matched succesfully" line appended to the
message buffer), and 2 when all are (with "No successful matches" appended).
(On the empty list the code is 2, not 0 — see the counterexample.) -/
theorem claim_C2 (oracle : Oracle) (ids : List PyStr) (cf qf vf : Bool)
    (bib : List BibEntry) (hne : ids ≠ [])
    (hok : mr2bib oracle ids = .ok bib) :
    ∃ cli, main oracle ⟨ids, cf, qf, vf⟩ = .ok (cli.code, cli) ∧
      (countErr bib = 0 → cli.code = 0) ∧
      (0 < countErr bib → countErr bib < ids.length →
        cli.code = 1 ∧
        summaryLine (ids.length - countErr bib) ids.length ∈ cli.messages) ∧
      (countErr bib = ids.length →
        cli.code = 2 ∧ "No successful matches".data ∈ cli.messages) := by
  have hok' : mr2bib oracle (Cli.init ⟨ids, cf, qf, vf⟩).args.id = .ok bib := by
    rw [init_id]
    exact hok
  have hbiblen : bib.length = ids.length := by
    rw [mr2bib_ok_map oracle ids bib hok, List.length_map]
  have hrun : Cli.run oracle (Cli.init ⟨ids, cf, qf, vf⟩) =
      .ok { create_output (Cli.init ⟨ids, cf, qf, vf⟩) bib with
        code := (tally_errors (create_output (Cli.init ⟨ids, cf, qf, vf⟩) bib) bib).1,
        messages :=
          (tally_errors (create_output (Cli.init ⟨ids, cf, qf, vf⟩) bib) bib).2 } := by
    simp only [Cli.run, hok']
  have hmain : main oracle ⟨ids, cf, qf, vf⟩ =
      .ok ((tally_errors (create_output (Cli.init ⟨ids, cf, qf, vf⟩) bib) bib).1,
        { create_output (Cli.init ⟨ids, cf, qf, vf⟩) bib with
          code :=
            (tally_errors (create_output (Cli.init ⟨ids, cf, qf, vf⟩) bib) bib).1,
          messages :=
            (tally_errors (create_output (Cli.init ⟨ids, cf, qf, vf⟩) bib) bib).2 }) := by
    simp only [main, hrun]
  have hec : (create_output (Cli.init ⟨ids, cf, qf, vf⟩) bib).error_count =
      countErr bib := by
    rw [create_output_error_count]
    show 0 + countErr bib = countErr bib
    omega
  have hid2 : (create_output (Cli.init ⟨ids, cf, qf, vf⟩) bib).args.id = ids := by
    rw [create_output_args, init_id]
  have hlen0 : ids.length ≠ 0 := by
    intro h0
    exact hne (List.length_eq_zero.mp h0)
  refine ⟨{ create_output (Cli.init ⟨ids, cf, qf, vf⟩) bib with
    code := (tally_errors (create_output (Cli.init ⟨ids, cf, qf, vf⟩) bib) bib).1,
    messages := (tally_errors (create_output (Cli.init ⟨ids, cf, qf, vf⟩) bib) bib).2 },
    hmain, ?_, ?_, ?_⟩
  · intro h0
    show (tally_errors _ bib).1 = 0
    unfold tally_errors
    rw [hec, hid2, if_neg (by omega), if_neg (by omega)]
  · intro h1 h2
    show (tally_errors _ bib).1 = 1 ∧ _ ∈ (tally_errors _ bib).2
    unfold tally_errors
    rw [hec, hid2, if_neg (by omega), if_pos (by omega)]
    refine ⟨rfl, ?_⟩
    apply List.mem_append_right
    rw [hbiblen]
    exact List.mem_singleton.mpr rfl
  · intro h1
    show (tally_errors _ bib).1 = 2 ∧ _ ∈ (tally_errors _ bib).2
    unfold tally_errors
    rw [hec, hid2, if_pos (by omega)]
    exact ⟨rfl, List.mem_append_right _ (List.mem_singleton.mpr rfl)⟩

/-- Witness for C2 at a mixed batch: one invalid, one not-found, one found
identifier, exit code 1 with the "2 of 3"-style summary line. -/
theorem claim_C2_witness :
    ∃ cli, main oW ⟨idsW, false, false, false⟩ = .ok (cli.code, cli) ∧
      (countErr bibW = 0 → cli.code = 0) ∧
      (0 < countErr bibW → countErr bibW < idsW.length →
        cli.code = 1 ∧
        summaryLine (idsW.length - countErr bibW) idsW.length ∈ cli.messages) ∧
      (countErr bibW = idsW.length →
        cli.code = 2 ∧ "No successful matches".data ∈ cli.messages) :=
  claim_C2 oW idsW false false false bibW (by decide) (by decide)

/-- C9: over the empty identifier list, the run finishes with zero errors and
yet exit code 2, emitting "No successful matches", because the all-errored
test compares the error count with the (zero) list length. -/
theorem claim_C9 :
    main oEmpty ⟨[], false, false, false⟩ = .ok (2, cli9) ∧
    cli9.error_count = 0 ∧ "No successful matches".data ∈ cli9.messages :=
  ⟨by decide, by decide, by decide⟩

/-- C1: evaluation at the failing input: the first identifier fetches
successfully, the second receives HTTP 500, and the whole run ends in the
uncaught plain exception (interpreter exit status 1, traceback on stderr)
whose message contains the status code — not in the claimed exit code 2. -/
theorem claim_C1_bug :
    main oracle500 ⟨["MR1996800".data, "MR1996801".data], false, false, false⟩ =
      .error (.genericExn "Received HTTP status code 500".data) ∧
    hasSubstr "500".data "Received HTTP status code 500".data = true ∧
    mr_request oracle500 "MR1996800".data = .ok "\n@article\x7bMR1996800\x7d".data :=
  ⟨by decide, by decide, by decide⟩

/-- C2 counterexample: on the empty input list, zero results are errors and
yet the exit code is 2, not 0. -/
theorem claim_C2_counterexample :
    main oEmpty ⟨[], false, false, false⟩ = .ok (2, cli9) ∧
    cli9.error_count = 0 ∧ cli9.code ≠ 0 :=
  ⟨by decide, by decide, by decide⟩

/-- C3 counterexample: a fetch whose body carries the not-found marker yields
an `ErrorInfo` whose message is "No such publication", not "Not found". -/
theorem claim_C3_counterexample :
    mr2bib oNF ["MR1996800".data] =
      .ok [.err (ReferenceErrorInfo.init "No such publication".data "MR1996800".data)] ∧
    (ReferenceErrorInfo.init "No such publication".data "MR1996800".data).message ≠
      "Not found".data ∧
    mr2bib oNF ["MR1996800".data] ≠
      .ok [.err (ReferenceErrorInfo.init "Not found".data "MR1996800".data)] :=
  ⟨by decide, by decide, by decide⟩

/-- C5: absent a fatal fetch failure, the aggregated result list equals the
input identifier list mapped through the per-identifier aggregation
semantics: exactly one entry per input identifier — `Record` or `ErrorInfo`
— in input order, duplicates, invalid and not-found identifiers included. -/
theorem claim_C5 (oracle : Oracle) (ids : List PyStr) (bib : List BibEntry)
    (h : mr2bib oracle ids = .ok bib) :
    bib = ids.map (expectedEntry oracle) ∧ bib.length = ids.length := by
  have hm := mr2bib_ok_map oracle ids bib h
  exact ⟨hm, by rw [hm, List.length_map]⟩

/-- Witness for C5 on a batch with one invalid, one not-found and one found
identifier. -/
theorem claim_C5_witness :
    mr2bib oW idsW = .ok bibW ∧
    bibW = idsW.map (expectedEntry oW) ∧ bibW.length = idsW.length := by
  have h : mr2bib oW idsW = .ok bibW := by decide
  exact ⟨h, (claim_C5 oW idsW bibW h).1, (claim_C5 oW idsW bibW h).2⟩

/-- C4 (amended): an identifier failing the validity check is mapped to an
`ErrorInfo` whose message is "Invalid Mathematical Reviews identifier" (the
claim's "Invalid identifier" is not the code's wording), and no fetch is made
for invalid identifiers: the aggregation result is unchanged under any two
servers that agree on valid identifiers. -/
theorem claim_C4 :
    (∀ (oracle : Oracle) (ids : List PyStr) (bib : List BibEntry) (i : Nat)
      (hi : i < ids.length), mr2bib oracle ids = .ok bib →
      is_valid ids[i] = false →
      ∀ (hb : i < bib.length), bib[i] = invalidEntry ids[i]) ∧
    (∀ (o1 o2 : Oracle) (ids : List PyStr),
      (∀ k, is_valid k = true → o1 k = o2 k) → mr2bib o1 ids = mr2bib o2 ids) := by
  constructor
  · intro oracle ids bib i hi hok hinv hb
    have hm := mr2bib_ok_map oracle ids bib hok
    subst hm
    rw [List.getElem_map]
    simp [expectedEntry, hinv]
  · intro o1 o2 ids h
    exact mr2bib_congr o1 o2 ids h

/-- Witness for C4: an invalid identifier yields the invalid-identifier
error entry, and a server differing from `oEmpty` only at invalid
identifiers yields the same aggregation result. -/
theorem claim_C4_witness :
    ([invalidEntry "XR1996800".data].get ⟨0, by decide⟩ =
      invalidEntry (["XR1996800".data].get ⟨0, by decide⟩)) ∧
    mr2bib oValidOnly idsW = mr2bib oEmpty idsW := by
  constructor
  · exact claim_C4.1 oEmpty ["XR1996800".data] [invalidEntry "XR1996800".data] 0
      (by decide) (by decide) (by decide) (by decide)
  · exact claim_C4.2 oValidOnly oEmpty idsW (fun k hk => by
      simp [oValidOnly, oEmpty, hk])

/-! Helper lemmas about the line scan of `mr_request`. -/

theorem scanLines_cons (key line : PyStr) (rest : List PyStr) (b : Bool)
    (acc : PyStr) :
    scanLines key (line :: rest) b acc =
      if hasSubstr "No publications results for".data line then
        .error (.notFoundError "No such publication".data key)
      else
        scanLines key rest
          (if pyStrip line = "<pre>".data then true
            else if pyStrip line = "</pre>".data then false else b)
          (if (if pyStrip line = "</pre>".data then false else b) then
            acc ++ '\n' :: line else acc) := rfl

theorem scanLines_marker (key : PyStr) (lines : List PyStr) (b : Bool) (acc : PyStr)
    (h : ∃ line ∈ lines, hasSubstr "No publications results for".data line = true) :
    scanLines key lines b acc =
      .error (.notFoundError "No such publication".data key) := by
  induction lines generalizing b acc with
  | nil =>
    obtain ⟨l, hl, _⟩ := h
    cases hl
  | cons line rest ih =>
    cases hm : hasSubstr "No publications results for".data line with
    | true =>
      rw [scanLines_cons, if_pos hm]
    | false =>
      obtain ⟨l, hl, hsub⟩ := h
      rcases List.mem_cons.mp hl with he | he
      · rw [he] at hsub
        rw [hsub] at hm
        cases hm
      · rw [scanLines_cons, if_neg (by simp [hm])]
        exact ih _ _ ⟨l, he, hsub⟩

theorem mr_request_200 (oracle : Oracle) (key : PyStr)
    (h : (oracle key).status_code = 200) :
    mr_request oracle key =
      match scanLines key (splitOnChar '\n' (oracle key).text) false [] with
      | .ok code => .ok code
      | .error e => .error e := by
  simp only [mr_request]
  rw [h]
  rw [if_neg (by norm_num), if_neg (by norm_num)]
  cases scanLines key (splitOnChar '\n' (oracle key).text) false [] with
  | ok code => rfl
  | error e => rfl

theorem scanLines_off (key : PyStr) (lines : List PyStr) (acc : PyStr)
    (h : ∀ l ∈ lines, hasSubstr "No publications results for".data l = false ∧
      pyStrip l ≠ "<pre>".data) :
    scanLines key lines false acc = .ok acc := by
  induction lines with
  | nil => rfl
  | cons line rest ih =>
    obtain ⟨hm, hp⟩ := h line (List.mem_cons_self _ _)
    rw [scanLines_cons, if_neg (by simp [hm]), ite_self, if_neg hp,
      if_neg (show ¬(false = true) from by decide)]
    exact ih (fun l hl => h l (List.mem_cons_of_mem _ hl))

theorem scanLines_off_append (key : PyStr) (lines rest : List PyStr) (acc : PyStr)
    (h : ∀ l ∈ lines, hasSubstr "No publications results for".data l = false ∧
      pyStrip l ≠ "<pre>".data) :
    scanLines key (lines ++ rest) false acc = scanLines key rest false acc := by
  induction lines with
  | nil => rfl
  | cons line lns ih =>
    obtain ⟨hm, hp⟩ := h line (List.mem_cons_self _ _)
    rw [List.cons_append, scanLines_cons, if_neg (by simp [hm]), ite_self,
      if_neg hp, if_neg (show ¬(false = true) from by decide)]
    exact ih (fun l hl => h l (List.mem_cons_of_mem _ hl))

theorem scanLines_on (key : PyStr) (lines rest : List PyStr) (acc : PyStr)
    (h : ∀ l ∈ lines, hasSubstr "No publications results for".data l = false ∧
      pyStrip l ≠ "</pre>".data) :
    scanLines key (lines ++ rest) true acc =
      scanLines key rest true (acc ++ (lines.map (fun l => '\n' :: l)).flatten) := by
  induction lines generalizing acc with
  | nil => simp
  | cons line lns ih =>
    obtain ⟨hm, hp⟩ := h line (List.mem_cons_self _ _)
    rw [List.cons_append, scanLines_cons, if_neg (by simp [hm]), if_neg hp,
      ite_self, if_pos rfl,
      ih _ (fun l hl => h l (List.mem_cons_of_mem _ hl)),
      List.map_cons, List.flatten_cons, ← List.append_assoc]

/-- C7: for a 200-response body without the not-found marker, the extracted
markup is the concatenation, each line prefixed by a line break, of exactly
the lines strictly between the `<pre>` marker line and the `</pre>` marker
line; when no marker line is present the result is the empty string and no
error is raised. -/
theorem claim_C7 :
    (∀ (oracle : Oracle) (key p q : PyStr) (pref mid suff : List PyStr),
      (oracle key).status_code = 200 →
      splitOnChar '\n' (oracle key).text = pref ++ p :: (mid ++ q :: suff) →
      pyStrip p = "<pre>".data → pyStrip q = "</pre>".data →
      hasSubstr "No publications results for".data p = false →
      hasSubstr "No publications results for".data q = false →
      (∀ l ∈ pref, hasSubstr "No publications results for".data l = false ∧
        pyStrip l ≠ "<pre>".data) →
      (∀ l ∈ mid, hasSubstr "No publications results for".data l = false ∧
        pyStrip l ≠ "</pre>".data) →
      (∀ l ∈ suff, hasSubstr "No publications results for".data l = false ∧
        pyStrip l ≠ "<pre>".data) →
      mr_request oracle key = .ok ((mid.map (fun l => '\n' :: l)).flatten)) ∧
    (∀ (oracle : Oracle) (key : PyStr),
      (oracle key).status_code = 200 →
      (∀ l ∈ splitOnChar '\n' (oracle key).text,
        hasSubstr "No publications results for".data l = false ∧
        pyStrip l ≠ "<pre>".data ∧ pyStrip l ≠ "</pre>".data) →
      mr_request oracle key = .ok []) := by
  constructor
  · intro oracle key p q pref mid suff hst hsplit hp hq hpm hqm hpref hmid hsuff
    have h2 : scanLines key (p :: (mid ++ q :: suff)) false [] =
        scanLines key (mid ++ q :: suff) true [] := by
      rw [scanLines_cons, if_neg (by simp [hpm]), hp, ite_self, if_pos rfl,
        if_neg (show ¬(false = true) from by decide)]
    have h4 : scanLines key (q :: suff) true ((mid.map (fun l => '\n' :: l)).flatten) =
        scanLines key suff false ((mid.map (fun l => '\n' :: l)).flatten) := by
      rw [scanLines_cons, if_neg (by simp [hqm]), hq, if_pos rfl,
        if_neg (show ¬(("</pre>".data : PyStr) = "<pre>".data) from by decide),
        if_neg (show ¬(false = true) from by decide)]
    have hscan : scanLines key (pref ++ p :: (mid ++ q :: suff)) false [] =
        .ok ((mid.map (fun l => '\n' :: l)).flatten) := by
      rw [scanLines_off_append key pref _ [] hpref, h2,
        scanLines_on key mid (q :: suff) [] hmid, List.nil_append, h4,
        scanLines_off key suff _ hsuff]
    rw [mr_request_200 oracle key hst, hsplit, hscan]
  · intro oracle key hst hall
    rw [mr_request_200 oracle key hst,
      scanLines_off key _ [] (fun l hl => ⟨(hall l hl).1, (hall l hl).2.1⟩)]

/-- Witness for C7 on the concrete `bodyPre` page: the extracted markup is
the line between the markers, prefixed by a line break. -/
theorem claim_C7_witness :
    mr_request oPre "MR1996800".data =
      .ok ((["@article\x7bMR1996800\x7d".data].map (fun l => '\n' :: l)).flatten) :=
  claim_C7.1 oPre "MR1996800".data "<pre>".data "</pre>".data
    ["junk".data] ["@article\x7bMR1996800\x7d".data] ["tail".data]
    (by decide) (by decide) (by decide) (by decide) (by decide) (by decide)
    (by decide) (by decide) (by decide)

/-- C3 (amended): for a valid identifier whose 200-response contains the
not-found marker line, the aggregator produces an `ErrorInfo` whose message
is "No such publication" (not the claim's "Not found"), and processing
continues: provided no other identifier hits a fatal fetch error, the run
still yields one result per input identifier. -/
theorem claim_C3 (oracle : Oracle) (ids : List PyStr) (i : Nat)
    (hi : i < ids.length)
    (hval : is_valid ids[i] = true)
    (hst : (oracle ids[i]).status_code = 200)
    (hmark : ∃ line ∈ splitOnChar '\n' (oracle ids[i]).text,
      hasSubstr "No publications results for".data line = true)
    (hothers : ∀ k ∈ ids, is_valid k = true → k ≠ ids[i] →
      fetchFatal oracle k = false) :
    ∃ bib, mr2bib oracle ids = .ok bib ∧ bib.length = ids.length ∧
      (∀ (hb : i < bib.length),
        bib[i] = .err (ReferenceErrorInfo.init "No such publication".data ids[i])) ∧
      (ReferenceErrorInfo.init "No such publication".data ids[i]).message ≠
        "Not found".data := by
  have hreq : mr_request oracle ids[i] =
      .error (.notFoundError "No such publication".data ids[i]) := by
    rw [mr_request_200 oracle _ hst, scanLines_marker _ _ _ _ hmark]
  have hfati : fetchFatal oracle ids[i] = false := by
    unfold fetchFatal
    rw [hreq]
  have hall : ∀ k ∈ ids, is_valid k = true → fetchFatal oracle k = false := by
    intro k hk hv
    by_cases he : k = ids[i]
    · rw [he]
      exact hfati
    · exact hothers k hk hv he
  have hok := mr2bib_ok_of_nonfatal oracle ids hall
  have hmsg : (ReferenceErrorInfo.init "No such publication".data ids[i]).message ≠
      "Not found".data := by
    show "No such publication".data ≠ "Not found".data
    decide
  refine ⟨_, hok, by rw [List.length_map], ?_, hmsg⟩
  intro hb
  rw [List.getElem_map]
  simp [expectedEntry, hval, fetchEntry, hreq]

/-- Witness for C3: in the batch `idsW` against `oW`, the second identifier
is valid, gets a not-found response, and is mapped to the "No such
publication" error while the batch completes. -/
theorem claim_C3_witness :
    ∃ bib, mr2bib oW idsW = .ok bib ∧ bib.length = idsW.length ∧
      (∀ (hb : 1 < bib.length),
        bib.get ⟨1, hb⟩ = .err (ReferenceErrorInfo.init "No such publication".data
          (idsW.get ⟨1, by decide⟩))) ∧
      (ReferenceErrorInfo.init "No such publication".data
        (idsW.get ⟨1, by decide⟩)).message ≠ "Not found".data :=
  claim_C3 oW idsW 1 (by decide) (by decide) (by decide) (by decide) (by decide)

/-- C4 counterexample: an invalid identifier yields an `ErrorInfo` whose
message is "Invalid Mathematical Reviews identifier", not "Invalid
identifier". -/
theorem claim_C4_counterexample :
    mr2bib oEmpty ["XR1996800".data] = .ok [invalidEntry "XR1996800".data] ∧
    (ReferenceErrorInfo.init "Invalid Mathematical Reviews identifier".data
      "XR1996800".data).message ≠ "Invalid identifier".data ∧
    mr2bib oEmpty ["XR1996800".data] ≠
      .ok [.err (ReferenceErrorInfo.init "Invalid identifier".data "XR1996800".data)] :=
  ⟨by decide, by decide, by decide⟩

end Mr2bib
